import Mathlib

/-!
Shallow embedding of the chat.bot repository (Python) in Lean 4.

Modules embedded:
- `src/config.py`            → `ChatBot.config`
- `src/database/models.py`   → row structures (`UserRow`, `ContextRow`, `FileRow`)
- `src/database/crud.py`     → `ChatBot.DatabaseManager.*` over an explicit `DBState`
- `src/utils/api.py`         → `ChatBot.APIHandler.*`
- `src/utils/file_processing.py` → `ChatBot.FileProcessor.*`
- `src/handlers/messages.py` → `ChatBot.handle_text`

Modelling conventions:
- SQLite is modelled as lists of rows inside `DBState`.  `AUTOINCREMENT`
  ids and `CURRENT_TIMESTAMP` defaults are modelled by the counters
  `nextContextId`, `nextFileId` and `clock`; each insert stamps the current
  counter value and increments it, so ids and timestamps are strictly
  increasing in insertion order (an idealised clock: two inserts never share
  a timestamp).
- `ORDER BY timestamp ASC/DESC` is modelled by an explicit insertion sort on
  the `timestamp` field (`sortTsAsc` / `sortTsDesc`).
- Network and filesystem effects are oracles passed as arguments; functions
  additionally return the list (or count) of outbound calls they made so that
  "the Gateway records N invocations" is a provable statement.
- Python exceptions that escape a scope are modelled by explicit constructors
  (`Outcome.raised`, `PyCall.typeError`, `BlockResult.exn`); the
  `DatabaseManager.__exit__` handler returning `True` (which makes Python
  suppress any exception raised inside a `with` block) is modelled by
  `withDatabaseManager` returning `none` and the rolled-back state.
-/

namespace ChatBot

/-- From `src/config.py`, class `Config`: the configuration values the core
reads (file-size limit in bytes, context window length, context TTL in days,
allowed file types). -/
structure Config where
  MAX_FILE_SIZE : Nat
  MAX_CONTEXT_LENGTH : Nat
  CONTEXT_DAYS_TTL : Nat
  ALLOWED_FILE_TYPES : List String
deriving Repr

/-- `config = Config()` with the literal values of `src/config.py`. -/
def config : Config :=
  { MAX_FILE_SIZE := 20 * 1024 * 1024
    MAX_CONTEXT_LENGTH := 20
    CONTEXT_DAYS_TTL := 3
    ALLOWED_FILE_TYPES := ["txt", "pdf", "doc", "docx", "xls", "xlsx", "png", "jpg", "jpeg"] }

/-- A row of the `users` table (`src/database/models.py`, `create_tables`):
`id INTEGER PRIMARY KEY`, `username TEXT`, `model TEXT` (nullable). The
timestamp columns are irrelevant to the claims and omitted. -/
structure UserRow where
  id : Int
  username : Option String
  model : Option String
deriving DecidableEq, Repr

/-- A row of the `context` table: `id INTEGER PRIMARY KEY AUTOINCREMENT`,
`user_id`, `role`, `content`, `timestamp DATETIME DEFAULT CURRENT_TIMESTAMP`. -/
structure ContextRow where
  id : Nat
  user_id : Int
  role : String
  content : String
  timestamp : Nat
deriving DecidableEq, Repr

/-- A row of the `files` table: `id INTEGER PRIMARY KEY AUTOINCREMENT`,
`user_id`, `file_uid TEXT UNIQUE`, `file_type`, `file_path`, `original_name`,
`processed BOOLEAN DEFAULT 0`, `created_at DATETIME DEFAULT CURRENT_TIMESTAMP`. -/
structure FileRow where
  id : Nat
  user_id : Int
  file_uid : String
  file_type : String
  file_path : String
  original_name : String
  processed : Bool
  created_at : Nat
deriving DecidableEq, Repr

/-- The committed state of the SQLite database plus the id/timestamp
generators (see the modelling conventions above). -/
structure DBState where
  users : List UserRow
  context : List ContextRow
  files : List FileRow
  nextContextId : Nat
  nextFileId : Nat
  clock : Nat
deriving DecidableEq, Repr

/-- The freshly initialised (empty) database. -/
def dbEmpty : DBState :=
  { users := [], context := [], files := [], nextContextId := 0, nextFileId := 0, clock := 0 }

/-- One element of a chat-completions `messages` payload:
`{"role": ..., "content": ...}`. -/
structure ChatMessage where
  role : String
  content : String
deriving DecidableEq, Repr

/-- Insertion step for `ORDER BY timestamp DESC`. -/
def insertTsDesc (r : ContextRow) : List ContextRow → List ContextRow
  | [] => [r]
  | x :: xs => if x.timestamp ≤ r.timestamp then r :: x :: xs else x :: insertTsDesc r xs

/-- `ORDER BY timestamp DESC` as an insertion sort. -/
def sortTsDesc : List ContextRow → List ContextRow
  | [] => []
  | x :: xs => insertTsDesc x (sortTsDesc xs)

/-- Insertion step for `ORDER BY timestamp ASC`. -/
def insertTsAsc (r : ContextRow) : List ContextRow → List ContextRow
  | [] => [r]
  | x :: xs => if r.timestamp ≤ x.timestamp then r :: x :: xs else x :: insertTsAsc r xs

/-- `ORDER BY timestamp ASC` as an insertion sort. -/
def sortTsAsc : List ContextRow → List ContextRow
  | [] => []
  | x :: xs => insertTsAsc x (sortTsAsc xs)

/-- Python's `l[-n:]` (for `n > 0`): the last `n` elements of a list. Used
for `context[-config.MAX_CONTEXT_LENGTH:]` in `handle_text`. -/
def lastN (n : Nat) (l : List α) : List α := (l.reverse.take n).reverse

namespace DatabaseManager

/-- `DatabaseManager.create_user` (`src/database/crud.py:32`):
`INSERT OR IGNORE INTO users (id, username) VALUES (?, ?)` — inserting an
existing id is a no-op. -/
def create_user (db : DBState) (user_id : Int) (username : Option String) : DBState :=
  if db.users.any (fun u => u.id == user_id) then db
  else { db with users := db.users ++ [{ id := user_id, username := username, model := none }] }

/-- `DatabaseManager.get_user` (`src/database/crud.py:42`):
`SELECT * FROM users WHERE id = ?`, `fetchone`. -/
def get_user (db : DBState) (user_id : Int) : Option UserRow :=
  db.users.find? (fun u => u.id == user_id)

/-- `DatabaseManager.update_user_model` (`src/database/crud.py:55`):
`UPDATE users SET model = ? WHERE id = ?`; returns `rowcount > 0`. -/
def update_user_model (db : DBState) (user_id : Int) (model : String) : Bool × DBState :=
  let users' := db.users.map
    (fun u => if u.id == user_id then { u with model := some model } else u)
  (db.users.any (fun u => u.id == user_id), { db with users := users' })

/-- The `DELETE` statement of `add_message_to_context`
(`src/database/crud.py:101`): `DELETE FROM context WHERE id NOT IN
(SELECT id FROM context WHERE user_id = ? ORDER BY timestamp DESC LIMIT ?)
AND user_id = ?` — a row survives iff its id is among the user's newest `n`
ids or it belongs to another user. -/
def pruneStep (ctx : List ContextRow) (user_id : Int) (n : Nat) : List ContextRow :=
  let keepIds :=
    ((sortTsDesc (ctx.filter (fun r => r.user_id == user_id))).take n).map (fun r => r.id)
  ctx.filter (fun r => decide (r.id ∈ keepIds) || r.user_id != user_id)

/-- `DatabaseManager.add_message_to_context` (`src/database/crud.py:92`):
`INSERT INTO context (user_id, role, content) VALUES (?, ?, ?)` followed by
the pruning `DELETE` (`pruneStep`) with limit `config.MAX_CONTEXT_LENGTH`,
in the same unit of work. -/
def add_message_to_context (db : DBState) (user_id : Int) (role content : String) : DBState :=
  let row : ContextRow :=
    { id := db.nextContextId, user_id := user_id, role := role, content := content,
      timestamp := db.clock }
  { db with
    context := pruneStep (db.context ++ [row]) user_id config.MAX_CONTEXT_LENGTH
    nextContextId := db.nextContextId + 1
    clock := db.clock + 1 }

/-- `DatabaseManager.get_context` (`src/database/crud.py:113`):
`SELECT role, content FROM context WHERE user_id = ? ORDER BY timestamp ASC`. -/
def get_context (db : DBState) (user_id : Int) : List ChatMessage :=
  (sortTsAsc (db.context.filter (fun r => r.user_id == user_id))).map
    (fun r => { role := r.role, content := r.content })

/-- `DatabaseManager.clear_context` (`src/database/crud.py:127`):
`DELETE FROM context WHERE user_id = ?`; returns `rowcount > 0`. -/
def clear_context (db : DBState) (user_id : Int) : Bool × DBState :=
  (db.context.any (fun r => r.user_id == user_id),
   { db with context := db.context.filter (fun r => r.user_id != user_id) })

/-- `DatabaseManager.save_file` (`src/database/crud.py:140`):
`INSERT INTO files (user_id, file_uid, file_type, file_path, original_name)
VALUES (?, ?, ?, ?, ?)` — `processed` is not in the column list, so it takes
the schema default `0` — then `SELECT * FROM files WHERE id = lastrowid`.
The `UNIQUE` constraint on `file_uid` makes the insert raise `sqlite3.Error`
when the uid already exists; the `except` clause then returns `None` with no
row inserted. -/
def save_file (db : DBState) (user_id : Int) (file_uid file_type file_path original_name : String) :
    Option FileRow × DBState :=
  if db.files.any (fun f => f.file_uid == file_uid) then (none, db)
  else
    let row : FileRow :=
      { id := db.nextFileId, user_id := user_id, file_uid := file_uid,
        file_type := file_type, file_path := file_path, original_name := original_name,
        processed := false, created_at := db.clock }
    (some row,
     { db with files := db.files ++ [row], nextFileId := db.nextFileId + 1,
               clock := db.clock + 1 })

/-- `DatabaseManager.get_file_by_uid` (`src/database/crud.py:160`):
`SELECT * FROM files WHERE file_uid = ?`, `fetchone`. -/
def get_file_by_uid (db : DBState) (file_uid : String) : Option FileRow :=
  db.files.find? (fun f => f.file_uid == file_uid)

/-- `DatabaseManager.mark_file_processed` (`src/database/crud.py:173`):
`UPDATE files SET processed = 1 WHERE file_uid = ?`; returns `rowcount > 0`. -/
def mark_file_processed (db : DBState) (file_uid : String) : Bool × DBState :=
  let files' := db.files.map
    (fun f => if f.file_uid == file_uid then { f with processed := true } else f)
  (db.files.any (fun f => f.file_uid == file_uid), { db with files := files' })

end DatabaseManager

/-- Outcome of a Python scope that either produces a value and a tentative
database state, or raises an exception (named by its class) part-way with
whatever tentative state it had reached. -/
inductive BlockResult (α : Type) where
  | ok (val : α) (state : DBState)
  | exn (name : String) (state : DBState)
deriving DecidableEq, Repr

/-- `DatabaseManager.__exit__` (`src/database/crud.py:22`): rolls the
connection back when an exception type is present, otherwise commits; then
closes and returns `True` unconditionally. Arguments: the exception type (if
any), the last committed state (what `rollback` restores) and the tentative
state of the session (what `commit` publishes). Returns the resulting
committed state and the handler's return value. -/
def DatabaseManager.exitHandler (exc_type : Option String) (committed tentative : DBState) :
    DBState × Bool :=
  match exc_type with
  | some _ => (committed, true)
  | none => (tentative, true)

/-- The `with DatabaseManager() as db:` statement around a unit of work
(`src/database/crud.py:19`): run the body on the committed state; on normal
completion `__exit__` commits; on an exception `__exit__` rolls back and —
because it returns `True` — Python suppresses the exception, so control
falls through to the code after the block. The suppressed case yields
`none`: names the block would have bound may be left unbound. -/
def withDatabaseManager (db : DBState) (body : DBState → BlockResult α) : Option α × DBState :=
  match body db with
  | .ok v s => (some v, (DatabaseManager.exitHandler none db s).1)
  | .exn n s => (none, (DatabaseManager.exitHandler (some n) db s).1)

/-- Parsed JSON body of a `POST /file/process` response
(`src/utils/api.py:64`, consumed in `src/utils/file_processing.py:99`):
optional keys `status`, `text`, `file_url`, `original_name`. -/
structure FileResponse where
  status : Option String
  text : Option String
  file_url : Option String
  original_name : Option String
deriving DecidableEq, Repr

namespace APIHandler

/-- `APIHandler.process_file` (`src/utils/api.py:64`). Local checks before
any network traffic: `os.path.exists` (missing → `None`), `os.path.getsize`
against `self.max_file_size = config.MAX_FILE_SIZE` (oversized → `None`),
then `open(...)` (an `IOError` → `None`). Only then `_make_request("POST",
"file/process", ...)` runs; its parsed-or-`None` outcome is the oracle
`net`. The second component counts the network requests issued. -/
def process_file (fileExists : Bool) (fileSize : Nat) (openFails : Bool)
    (net : Option FileResponse) : Option FileResponse × Nat :=
  if !fileExists then (none, 0)
  else if fileSize > config.MAX_FILE_SIZE then (none, 0)
  else if openFails then (none, 0)
  else (net, 1)

/-- The source a download streams from (`requests.get(file_url,
stream=True)` in `src/utils/api.py:118`): either the connection itself fails
(`requests.get` raises, or `raise_for_status` does — before `open`), or a
stream yields `chunks` and then either ends normally or raises mid-iteration. -/
inductive DownloadSource where
  | connError
  | stream (chunks : List (List Nat)) (midFail : Bool)
deriving DecidableEq, Repr

/-- The bytes `download_processed_file` writes: each delivered chunk passes
`if chunk:` (empty chunks are skipped) and is appended to the file opened
with mode `wb`. -/
def writtenBytes (chunks : List (List Nat)) : List Nat :=
  (chunks.filter (fun c => !c.isEmpty)).flatten

/-- `APIHandler.download_processed_file` (`src/utils/api.py:118`). `dest` is
the content of the file at `save_path` before the call (`none` = no file).
A connection error happens before `open(save_path, 'wb')`, so the
destination is untouched; once the stream is open the chunks received so far
are written, and a mid-stream exception leaves them there — the single
`except` only logs and returns `False`, it does not unlink `save_path`. -/
def download_processed_file (src : DownloadSource) (dest : Option (List Nat)) :
    Bool × Option (List Nat) :=
  match src with
  | .connError => (false, dest)
  | .stream chunks midFail =>
      if midFail then (false, some (writtenBytes chunks))
      else (true, some (writtenBytes chunks))

end APIHandler

namespace FileProcessor

/-- Characters before the first `'/'` of a character list. -/
def upToSlash : List Char → List Char
  | [] => []
  | c :: cs => if c = '/' then [] else c :: upToSlash cs

/-- The primary MIME category: `mime_type.split('/')[0]`
(`src/utils/file_processing.py:89`), i.e. everything before the first `/`. -/
def mainType (mime : String) : String := String.mk (upToSlash mime.toList)

/-- `FileProcessor._validate_file` (`src/utils/file_processing.py:75`):
reject when the size exceeds `self.max_file_size = config.MAX_FILE_SIZE`,
when `mimetypes.guess_type` yields no MIME type, or when the primary MIME
category is not in `self.allowed_types = config.ALLOWED_FILE_TYPES`.
`mime` is the oracle for `mimetypes.guess_type(file_path)`. -/
def validate_file (size : Nat) (mime : Option String) : Bool :=
  if size > config.MAX_FILE_SIZE then false
  else
    match mime with
    | none => false
    | some m => config.ALLOWED_FILE_TYPES.contains (mainType m)

/-- One directory entry of the managed temporary area as
`FileProcessor.cleanup_temp_files` observes it: its name, whether it is a
regular file (`file.is_file()`), its `st_mtime` (seconds), and whether
`file.unlink()` raises for it. -/
structure TempFile where
  name : String
  isFile : Bool
  mtime : Int
  unlinkFails : Bool
deriving DecidableEq, Repr

/-- The Python default of the `older_than_hours` parameter of
`cleanup_temp_files` (`src/utils/file_processing.py:164`). -/
def cleanup_default_hours : Int := 24

/-- `FileProcessor.cleanup_temp_files` (`src/utils/file_processing.py:164`).
`now` and `mtime` are in seconds; `(now - file_time) > timedelta(hours=h)`
becomes `now - mtime > h * 3600`. The `try` wraps the whole `iterdir` loop
and the single `except` merely logs, so the first failing `unlink` ends the
sweep: the result is the list of names actually deleted and whether the
sweep ran to completion. -/
def cleanup_temp_files (now : Int) (hours : Int) : List TempFile → List String × Bool
  | [] => ([], true)
  | f :: rest =>
      if f.isFile && decide (now - f.mtime > hours * 3600) then
        if f.unlinkFails then ([], false)
        else
          let r := cleanup_temp_files now hours rest
          (f.name :: r.1, r.2)
      else cleanup_temp_files now hours rest

/-- Whether `cleanup_temp_files` would delete this entry in an error-free
sweep: a regular file whose age exceeds the threshold. -/
def sweepDeletable (now : Int) (hours : Int) (f : TempFile) : Bool :=
  f.isFile && decide (now - f.mtime > hours * 3600)

/-- A Python call either binds its arguments and runs, or raises `TypeError`
at the call site when a keyword argument does not match any parameter. -/
inductive PyCall (α : Type) where
  | ok (val : α)
  | typeError
deriving DecidableEq, Repr

/-- The keyword parameters of `DatabaseManager.save_file`
(`src/database/crud.py:140`, `self` excluded): `user_id`, `file_uid`,
`file_type`, `file_path`, `original_name`. -/
def save_file_params : List String :=
  ["user_id", "file_uid", "file_type", "file_path", "original_name"]

/-- The keyword arguments `FileProcessor._handle_file_response` passes to
`db.save_file` (`src/utils/file_processing.py:145`): note the extra
`processed` keyword, which `DatabaseManager.save_file` does not declare. -/
def handle_response_save_kwargs : List String :=
  ["user_id", "file_uid", "file_type", "file_path", "original_name", "processed"]

/-- Python call semantics for `db.save_file(...)` with the given keyword
names: if every keyword matches a parameter of `DatabaseManager.save_file`
the call runs, otherwise Python raises `TypeError` before the body starts
(so no SQL executes). -/
def call_save_file (kwargs : List String) (db : DBState) (user_id : Int)
    (file_uid file_type file_path original_name : String) :
    PyCall (Option FileRow × DBState) :=
  if kwargs.all (fun k => save_file_params.contains k) then
    .ok (DatabaseManager.save_file db user_id file_uid file_type file_path original_name)
  else .typeError

/-- Characters after the last `'.'` of a character list (`none` when there
is no dot). -/
def afterLastDot : List Char → Option (List Char)
  | [] => none
  | c :: cs =>
      match afterLastDot cs with
      | some e => some e
      | none => if c = '.' then some cs else none

/-- `save_path.suffix[1:]` (`src/utils/file_processing.py:148`): the
pathlib suffix of the destination (extension after the last dot, with the
leading dot dropped; empty when the name has no dot). -/
def sfxAfterDot (path : String) : String :=
  match afterLastDot path.toList with
  | some e => String.mk e
  | none => ""

/-- The value `_handle_file_response` returns on its success path
(`src/utils/file_processing.py:154`): a file result handing the transport
the path and name to deliver. -/
structure FileResult where
  path : String
  original_name : String
deriving DecidableEq, Repr

/-- `FileProcessor._handle_file_response` (`src/utils/file_processing.py:128`),
the ingest step of the pipeline. `download` is the oracle for
`api_client.download_processed_file`; the third component lists the URLs it
was invoked with. Control flow of the source:
`file_url = response['file_url']` (the caller only enters here when the key
is present and truthy); a failed download returns `None`; then
`with DatabaseManager() as db: file_data = db.save_file(..., processed=True)`
— the `processed` keyword is not a parameter of `DatabaseManager.save_file`,
so the call raises `TypeError` inside the `with` block, `__exit__` rolls
back and suppresses it (`withDatabaseManager` yields `none` and the
unchanged state), `file_data` is left unbound but is never used afterwards,
and the function still returns the success dictionary. -/
def handle_file_response (db : DBState) (download : String → Bool)
    (response : FileResponse) (user_id : Int) (freshUid : String) :
    Option FileResult × DBState × List String :=
  match response.file_url with
  | none => (none, db, [])
  | some file_url =>
      let original_name := response.original_name.getD "processed_file"
      let save_path := "temp_files/processed_" ++ original_name
      if !download file_url then (none, db, [file_url])
      else
        let saved := withDatabaseManager db (fun s =>
          match call_save_file handle_response_save_kwargs s user_id freshUid
              (sfxAfterDot save_path) save_path original_name with
          | .ok (fd, s') => .ok fd s'
          | .typeError => .exn "TypeError" s)
        (some { path := save_path, original_name := original_name }, saved.2, [file_url])

end FileProcessor

/-- `{"message": {"content": ...}}` inside one element of `choices`. -/
structure ChatChoiceMessage where
  content : String
deriving DecidableEq, Repr

/-- One element of the `choices` array of a chat-completions response. -/
structure ChatChoice where
  message : ChatChoiceMessage
deriving DecidableEq, Repr

/-- Parsed JSON body of a `POST /chat/completions` response:
`choices := none` models a body without a `'choices'` key. -/
structure ChatResponse where
  choices : Option (List ChatChoice)
deriving DecidableEq, Repr

/-- Oracle for `api_client.send_chat_request` (`src/utils/api.py:44`): given
the `model` field of the payload (Python `None` = `none`) and the `messages`
list, the parsed response body, or `none` when `_make_request` absorbed a
transport/HTTP/parse failure. -/
def ChatGateway : Type := Option String → List ChatMessage → Option ChatResponse

/-- What `handle_text` does at the transport boundary: either it awaited
`message.answer(text)` exactly once with the given text, or an exception
(named by its class) propagated out of the handler and no reply was sent. -/
inductive Outcome where
  | replied (text : String)
  | raised (exn : String)
deriving DecidableEq, Repr

/-- `"⚠️ Ошибка получения ответа"` — the reply sent when the gateway result
is falsy or has no `choices` key (`src/handlers/messages.py:31`). -/
def genericResponseError : String := "⚠️ Ошибка получения ответа"

/-- `"❌ Произошла ошибка при обработке запроса"` — the reply the `except`
clause of `handle_text` would send (`src/handlers/messages.py:47`). -/
def genericHandlerError : String := "❌ Произошла ошибка при обработке запроса"

/-- `handle_text` (`src/handlers/messages.py:11`). Returns the transport
outcome, the committed database state afterwards, and the list of
`send_chat_request` invocations (payload model and messages) in order.

Control flow of the source, step by step:
- `with DatabaseManager() as db:` — `context = db.get_context(user.id)`,
  then `user_model = db.get_user(user.id).model`. When no user row exists
  `get_user` returns `None` and `.model` raises `AttributeError`; `__exit__`
  rolls back and suppresses it, leaving `user_model` unbound. The later
  reference to `user_model` then raises `UnboundLocalError`, which the
  `except Exception` clause catches — but that clause starts with
  `logging.error(...)` and `src/handlers/messages.py` never imports
  `logging`, so a `NameError` is raised there and propagates out of the
  handler before `message.answer("❌ ...")` runs. Hence `.raised "NameError"`
  with no gateway call and no reply.
- Otherwise `context.append({"role": "user", "content": message.text})` (in
  memory only — never written to the database), and the gateway is called
  with `messages=context[-config.MAX_CONTEXT_LENGTH:]`.
- `if not response or 'choices' not in response:` → the
  `genericResponseError` reply.
- `response['choices'][0]` raises `IndexError` on an empty `choices` array;
  the `except` clause again hits the missing `logging` import, so
  `.raised "NameError"`.
- Otherwise the answer is stored via `add_message_to_context(user.id,
  "assistant", answer)` and sent back verbatim. -/
def handle_text (db : DBState) (gw : ChatGateway) (user_id : Int) (text : String) :
    Outcome × DBState × List (Option String × List ChatMessage) :=
  match DatabaseManager.get_user db user_id with
  | none => (.raised "NameError", db, [])
  | some user =>
      let context := DatabaseManager.get_context db user_id ++ [{ role := "user", content := text }]
      let payload := lastN config.MAX_CONTEXT_LENGTH context
      match gw user.model payload with
      | none => (.replied genericResponseError, db, [(user.model, payload)])
      | some response =>
          match response.choices with
          | none => (.replied genericResponseError, db, [(user.model, payload)])
          | some [] => (.raised "NameError", db, [(user.model, payload)])
          | some (choice :: _) =>
              let answer := choice.message.content
              (.replied answer,
               DatabaseManager.add_message_to_context db user_id "assistant" answer,
               [(user.model, payload)])

/-! ### Derived definitions used by the statements -/

/-- Run a sequence of `add_message_to_context` calls
(`(user_id, role, content)` triples) against a database state. -/
def runAdds (db : DBState) : List (Int × String × String) → DBState
  | [] => db
  | (u, role, content) :: rest =>
      runAdds (DatabaseManager.add_message_to_context db u role content) rest

/-- The messages a call trace appended for one user, in call order. -/
def msgs (u : Int) (tr : List (Int × String × String)) : List ChatMessage :=
  (tr.filter (fun e => e.1 == u)).map (fun e => { role := e.2.1, content := e.2.2 })

/-- The state invariant of the `context` table in this embedding: rows are
listed in insertion order with strictly increasing ids and timestamps, ids
and timestamps are below the generators, and every user's row count is
within the configured window. `dbEmpty` satisfies it and
`add_message_to_context` preserves it. -/
def Inv (db : DBState) : Prop :=
  db.context.Pairwise (fun a b => a.id < b.id ∧ a.timestamp < b.timestamp) ∧
  (∀ r ∈ db.context, r.id < db.nextContextId ∧ r.timestamp < db.clock) ∧
  (∀ u : Int, (db.context.filter (fun r => r.user_id == u)).length ≤ config.MAX_CONTEXT_LENGTH)

/-! ### Concrete instances used by counterexamples and witnesses -/

/-- A state with one user whose stored model is `"gpt-4"` and no context. -/
def db_C1 : DBState :=
  { dbEmpty with users := [{ id := 1, username := none, model := some "gpt-4" }] }

/-- A gateway that answers every chat request with
`{"choices":[{"message":{"content":"4"}}]}`. -/
def gw_C1 : ChatGateway :=
  fun _ _ => some { choices := some [{ message := { content := "4" } }] }

/-- A state with one user whose stored model is `NULL`. -/
def db_C8 : DBState :=
  { dbEmpty with users := [{ id := 1, username := none, model := none }] }

/-- A gateway that fails (absent result) exactly when the payload carries no
model identifier. -/
def gw_C8 : ChatGateway :=
  fun model _ =>
    if model.isNone then none
    else some { choices := some [{ message := { content := "ok" } }] }

/-- A healthy gateway: used to show `handle_text` never reaches the gateway
when the user row is missing. -/
def gw_C10 : ChatGateway :=
  fun _ _ => some { choices := some [{ message := { content := "ok" } }] }

/-- The `processFile` response of the C2 scenario:
`{"status":"ok","file_url":"http://x/y.pdf","original_name":"y.pdf"}`. -/
def resp_C2 : FileResponse :=
  { status := some "ok", text := none, file_url := some "http://x/y.pdf",
    original_name := some "y.pdf" }

/-- A state holding the input file's record (uid `"in-uid"`, unprocessed). -/
def db_C2 : DBState :=
  { dbEmpty with
    users := [{ id := 1, username := none, model := some "gpt-4" }],
    files := [{ id := 0, user_id := 1, file_uid := "in-uid", file_type := "pdf",
                file_path := "temp_files/in.pdf", original_name := "in.pdf",
                processed := false, created_at := 0 }],
    nextFileId := 1, clock := 1 }

/-- Two stale regular files; deleting the first fails, the second would
succeed. -/
def files_C4 : List FileProcessor.TempFile :=
  [{ name := "a.pdf", isFile := true, mtime := 0, unlinkFails := true },
   { name := "b.pdf", isFile := true, mtime := 0, unlinkFails := false }]

/-- The record `save_file dbEmpty 1 "u1" "pdf" "p" "n"` creates. -/
def fileRow_C6 : FileRow :=
  { id := 0, user_id := 1, file_uid := "u1", file_type := "pdf", file_path := "p",
    original_name := "n", processed := false, created_at := 0 }

/-- The state after `save_file dbEmpty 1 "u1" "pdf" "p" "n"`. -/
def db_C6 : DBState :=
  { dbEmpty with files := [fileRow_C6], nextFileId := 1, clock := 1 }

/-! ### Helper lemmas (lists, sorting, the context window) -/

theorem lastN_length (n : Nat) (l : List α) : (lastN n l).length = min n l.length := by
  simp [lastN]

theorem lastN_length_le (n : Nat) (l : List α) : (lastN n l).length ≤ n := by
  simp [lastN_length]

theorem lastN_of_length_le (n : Nat) (l : List α) (h : l.length ≤ n) : lastN n l = l := by
  have : l.reverse.length ≤ n := by simpa using h
  simp [lastN, List.take_of_length_le this]

theorem lastN_eq_drop (n : Nat) (l : List α) : lastN n l = l.drop (l.length - n) := by
  have h : (List.take n l.reverse).reverse = List.drop (l.reverse.length - n) l.reverse.reverse :=
    List.reverse_take ..
  simpa [lastN] using h

theorem map_lastN (f : α → β) (n : Nat) (l : List α) :
    (lastN n l).map f = lastN n (l.map f) := by
  simp [lastN]

theorem lastN_append_lastN (n : Nat) (a b : List α) :
    lastN n (lastN n a ++ b) = lastN n (a ++ b) := by
  unfold lastN
  rw [List.reverse_append, List.reverse_reverse, List.reverse_append]
  rw [List.take_append_eq_append_take, List.take_append_eq_append_take, List.take_take]
  have : min (n - b.reverse.length) n = n - b.reverse.length := by omega
  rw [this]

theorem mem_lastN_append_singleton (n : Nat) (hn : 0 < n) (l : List α) (a : α) :
    a ∈ lastN n (l ++ [a]) := by
  unfold lastN
  rw [List.reverse_append]
  obtain ⟨m, rfl⟩ : ∃ m, n = m + 1 := ⟨n - 1, by omega⟩
  simp [List.take_succ_cons]

theorem insertTsDesc_of_forall_lt (r : ContextRow) (l : List ContextRow)
    (h : ∀ x ∈ l, r.timestamp < x.timestamp) : insertTsDesc r l = l ++ [r] := by
  induction l with
  | nil => rfl
  | cons x xs ih =>
      have hx : ¬ (x.timestamp ≤ r.timestamp) := by
        have := h x (by simp); omega
      simp only [insertTsDesc, if_neg hx, List.cons_append]
      rw [ih (fun y hy => h y (by simp [hy]))]

theorem sortTsDesc_of_sorted (l : List ContextRow)
    (h : l.Pairwise (fun a b => a.timestamp < b.timestamp)) : sortTsDesc l = l.reverse := by
  induction l with
  | nil => rfl
  | cons x xs ih =>
      rw [List.pairwise_cons] at h
      show insertTsDesc x (sortTsDesc xs) = _
      rw [ih h.2, insertTsDesc_of_forall_lt x xs.reverse
        (fun y hy => h.1 y (List.mem_reverse.mp hy))]
      simp

theorem sortTsAsc_of_sorted (l : List ContextRow)
    (h : l.Pairwise (fun a b => a.timestamp < b.timestamp)) : sortTsAsc l = l := by
  induction l with
  | nil => rfl
  | cons x xs ih =>
      rw [List.pairwise_cons] at h
      show insertTsAsc x (sortTsAsc xs) = _
      rw [ih h.2]
      cases xs with
      | nil => rfl
      | cons y ys =>
          have hle : x.timestamp ≤ y.timestamp := le_of_lt (h.1 y (by simp))
          simp [insertTsAsc, hle]

theorem ids_nodup (l : List ContextRow) (h : l.Pairwise (fun a b => a.id < b.id)) :
    (l.map (fun r => r.id)).Nodup := by
  refine List.Pairwise.map _ (fun a b hab => ?_) h
  exact Nat.ne_of_lt hab

theorem find?_append_left_false (l₁ l₂ : List α) (p : α → Bool)
    (h : ∀ x ∈ l₁, p x = false) : (l₁ ++ l₂).find? p = l₂.find? p := by
  induction l₁ with
  | nil => rfl
  | cons x xs ih =>
      simp only [List.cons_append, List.find?]
      rw [h x (by simp)]
      exact ih (fun y hy => h y (by simp [hy]))

theorem filter_keep_suffix (l : List ContextRow) (n : Nat)
    (hid : l.Pairwise (fun a b => a.id < b.id)) :
    l.filter (fun r => decide (r.id ∈ (lastN n l).map (fun x => x.id))) = lastN n l := by
  have hnodup : (l.map (fun r => r.id)).Nodup := ids_nodup l hid
  have hl : l.Nodup := List.Nodup.of_map _ hnodup
  rw [lastN_eq_drop]
  have hsplit : l.take (l.length - n) ++ l.drop (l.length - n) = l :=
    List.take_append_drop ..
  set t := l.take (l.length - n) with ht
  set s := l.drop (l.length - n) with hs
  have hdisj : t.Disjoint s := by
    have : (t ++ s).Nodup := by rw [hsplit]; exact hl
    exact (List.nodup_append.mp this).2.2
  conv_lhs => rw [← hsplit]
  rw [List.filter_append]
  have hkeep : s.filter (fun r => decide (r.id ∈ s.map (fun x => x.id))) = s := by
    refine List.filter_eq_self.mpr (fun a ha => ?_)
    simp only [decide_eq_true_eq, List.mem_map]
    exact ⟨a, ha, rfl⟩
  have hdropped : t.filter (fun r => decide (r.id ∈ s.map (fun x => x.id))) = [] := by
    refine List.filter_eq_nil_iff.mpr (fun a ha => ?_)
    simp only [decide_eq_true_eq, List.mem_map, not_exists, not_and]
    intro y hy hxy
    have hal : a ∈ l := by rw [← hsplit]; exact List.mem_append_left _ ha
    have hyl : y ∈ l := by rw [← hsplit]; exact List.mem_append_right _ hy
    have : y = a := List.inj_on_of_nodup_map hnodup hyl hal hxy
    subst this
    exact hdisj ha hy
  rw [hkeep, hdropped, List.nil_append]

theorem pruneStep_sublist (ctx : List ContextRow) (u : Int) (n : Nat) :
    (DatabaseManager.pruneStep ctx u n).Sublist ctx := by
  unfold DatabaseManager.pruneStep
  exact List.filter_sublist ..

theorem pruneStep_user (ctx : List ContextRow) (u : Int) (n : Nat)
    (hord : ctx.Pairwise (fun a b => a.id < b.id ∧ a.timestamp < b.timestamp)) :
    (DatabaseManager.pruneStep ctx u n).filter (fun r => r.user_id == u)
      = lastN n (ctx.filter (fun r => r.user_id == u)) := by
  have hulord : (ctx.filter (fun r => r.user_id == u)).Pairwise
      (fun a b => a.id < b.id ∧ a.timestamp < b.timestamp) := hord.filter _
  have hults : (ctx.filter (fun r => r.user_id == u)).Pairwise
      (fun a b => a.timestamp < b.timestamp) := hulord.imp (fun h => h.2)
  have hulid : (ctx.filter (fun r => r.user_id == u)).Pairwise
      (fun a b => a.id < b.id) := hulord.imp (fun h => h.1)
  unfold DatabaseManager.pruneStep
  rw [sortTsDesc_of_sorted _ hults, List.filter_filter]
  have hpt : ∀ a ∈ ctx,
      ((a.user_id == u) &&
        (decide (a.id ∈ ((ctx.filter (fun r => r.user_id == u)).reverse.take n).map
            (fun r => r.id)) || a.user_id != u))
      = (decide (a.id ∈ (lastN n (ctx.filter (fun r => r.user_id == u))).map
            (fun r => r.id)) && (a.user_id == u)) := by
    intro a _
    have hX : decide (a.id ∈ ((ctx.filter (fun r => r.user_id == u)).reverse.take n).map
          (fun r => r.id))
        = decide (a.id ∈ (lastN n (ctx.filter (fun r => r.user_id == u))).map
          (fun r => r.id)) := by
      apply decide_eq_decide.mpr
      unfold lastN
      rw [List.map_reverse]
      exact List.mem_reverse.symm
    rw [hX]
    cases h1 : (a.user_id == u) <;> simp [h1, bne]
  rw [List.filter_congr hpt, ← List.filter_filter]
  exact filter_keep_suffix _ n hulid

theorem pruneStep_other (ctx : List ContextRow) (u : Int) (n : Nat) (v : Int) (hvu : v ≠ u) :
    (DatabaseManager.pruneStep ctx u n).filter (fun r => r.user_id == v)
      = ctx.filter (fun r => r.user_id == v) := by
  unfold DatabaseManager.pruneStep
  rw [List.filter_filter]
  refine List.filter_congr (fun a _ => ?_)
  cases h1 : (a.user_id == v)
  · simp [h1]
  · have hav : a.user_id = v := by simpa using h1
    have h2 : (a.user_id == u) = false := by simp [hav, hvu]
    simp [h1, h2, bne]

theorem add_message_spec (db : DBState) (u : Int) (role content : String) (hInv : Inv db) :
    Inv (DatabaseManager.add_message_to_context db u role content) ∧
    DatabaseManager.get_context (DatabaseManager.add_message_to_context db u role content) u
      = lastN config.MAX_CONTEXT_LENGTH
          (DatabaseManager.get_context db u ++ [{ role := role, content := content }]) ∧
    (∀ v, v ≠ u →
      DatabaseManager.get_context (DatabaseManager.add_message_to_context db u role content) v
        = DatabaseManager.get_context db v) := by
  obtain ⟨hord, hbnd, hlen⟩ := hInv
  set row : ContextRow :=
    { id := db.nextContextId, user_id := u, role := role, content := content,
      timestamp := db.clock } with hrowdef
  have hfull : (db.context ++ [row]).Pairwise
      (fun a b => a.id < b.id ∧ a.timestamp < b.timestamp) := by
    rw [List.pairwise_append]
    refine ⟨hord, List.pairwise_singleton .., ?_⟩
    intro a ha b hb
    simp only [List.mem_singleton] at hb
    subst hb
    exact ⟨(hbnd a ha).1, (hbnd a ha).2⟩
  have hafter : (DatabaseManager.add_message_to_context db u role content).context
      = DatabaseManager.pruneStep (db.context ++ [row]) u config.MAX_CONTEXT_LENGTH := rfl
  have hrowuser : (row.user_id == u) = true := by simp [hrowdef]
  have hulapp : (db.context ++ [row]).filter (fun r => r.user_id == u)
      = db.context.filter (fun r => r.user_id == u) ++ [row] := by
    rw [List.filter_append]
    simp [hrowuser]
  have huser : (DatabaseManager.add_message_to_context db u role content).context.filter
        (fun r => r.user_id == u)
      = lastN config.MAX_CONTEXT_LENGTH
          (db.context.filter (fun r => r.user_id == u) ++ [row]) := by
    rw [hafter, pruneStep_user _ _ _ hfull, hulapp]
  have hother : ∀ v, v ≠ u →
      (DatabaseManager.add_message_to_context db u role content).context.filter
        (fun r => r.user_id == v) = db.context.filter (fun r => r.user_id == v) := by
    intro v hv
    rw [hafter, pruneStep_other _ _ _ v hv, List.filter_append]
    have hrv : (row.user_id == v) = false := by
      simp [hrowdef]
      exact Ne.symm hv
    simp [hrv]
  have hprunedfull : (DatabaseManager.add_message_to_context db u role content).context.Pairwise
      (fun a b => a.id < b.id ∧ a.timestamp < b.timestamp) := by
    rw [hafter]
    exact hfull.sublist (pruneStep_sublist ..)
  have hgc : ∀ (s : DBState), s.context.Pairwise
        (fun a b => a.id < b.id ∧ a.timestamp < b.timestamp) → ∀ w,
      DatabaseManager.get_context s w = (s.context.filter (fun r => r.user_id == w)).map
        (fun r => ({ role := r.role, content := r.content } : ChatMessage)) := by
    intro s hs w
    unfold DatabaseManager.get_context
    rw [sortTsAsc_of_sorted _ ((hs.filter _).imp (fun h => h.2))]
  refine ⟨⟨hprunedfull, ?_, ?_⟩, ?_, ?_⟩
  · intro r hr
    rw [hafter] at hr
    have hr2 : r ∈ db.context ++ [row] := (pruneStep_sublist ..).subset hr
    rcases List.mem_append.mp hr2 with h | h
    · exact ⟨Nat.lt_succ_of_lt (hbnd r h).1, Nat.lt_succ_of_lt (hbnd r h).2⟩
    · simp only [List.mem_singleton] at h
      subst h
      exact ⟨Nat.lt_succ_self _, Nat.lt_succ_self _⟩
  · intro w
    by_cases hw : w = u
    · subst hw
      rw [huser]
      exact lastN_length_le ..
    · rw [hother w hw]
      exact hlen w
  · rw [hgc _ hprunedfull u, huser, map_lastN, List.map_append, hgc db hord u]
    simp [hrowdef]
  · intro v hv
    rw [hgc _ hprunedfull v, hother v hv, ← hgc db hord v]

theorem get_context_of_sorted (s : DBState)
    (hs : s.context.Pairwise (fun a b => a.id < b.id ∧ a.timestamp < b.timestamp)) (w : Int) :
    DatabaseManager.get_context s w = (s.context.filter (fun r => r.user_id == w)).map
      (fun r => ({ role := r.role, content := r.content } : ChatMessage)) := by
  unfold DatabaseManager.get_context
  rw [sortTsAsc_of_sorted _ ((hs.filter _).imp (fun h => h.2))]

theorem dbEmpty_inv : Inv dbEmpty := by
  refine ⟨List.Pairwise.nil, ?_, ?_⟩ <;> simp [dbEmpty]

theorem runAdds_spec (tr : List (Int × String × String)) :
    ∀ db, Inv db →
      Inv (runAdds db tr) ∧
      ∀ u, DatabaseManager.get_context (runAdds db tr) u
        = lastN config.MAX_CONTEXT_LENGTH (DatabaseManager.get_context db u ++ msgs u tr) := by
  induction tr with
  | nil =>
      intro db hInv
      refine ⟨hInv, fun u => ?_⟩
      have hg : DatabaseManager.get_context db u
          = (db.context.filter (fun r => r.user_id == u)).map
            (fun r => ({ role := r.role, content := r.content } : ChatMessage)) :=
        get_context_of_sorted db hInv.1 u
      have hlen2 : (DatabaseManager.get_context db u).length ≤ config.MAX_CONTEXT_LENGTH := by
        rw [hg, List.length_map]
        exact hInv.2.2 u
      simp [msgs, runAdds, lastN_of_length_le _ _ hlen2]
  | cons e tr ih =>
      intro db hInv
      obtain ⟨v, role, content⟩ := e
      have hstep := add_message_spec db v role content hInv
      have hrec := ih (DatabaseManager.add_message_to_context db v role content) hstep.1
      refine ⟨hrec.1, fun u => ?_⟩
      have heq : runAdds db ((v, role, content) :: tr)
          = runAdds (DatabaseManager.add_message_to_context db v role content) tr := rfl
      rw [heq, hrec.2 u]
      by_cases hu : u = v
      · subst hu
        rw [hstep.2.1, lastN_append_lastN]
        have hmsgs : msgs u ((u, role, content) :: tr)
            = { role := role, content := content } :: msgs u tr := by
          simp [msgs]
        rw [hmsgs, List.append_assoc, List.singleton_append]
      · rw [hstep.2.2 u hu]
        have hmsgs : msgs u ((v, role, content) :: tr) = msgs u tr := by
          have : (v == u) = false := by
            simp
            exact fun h => hu h.symm
          simp [msgs, this]
        rw [hmsgs]

theorem map_id_of_fix (l : List α) (f : α → α) (h : ∀ a ∈ l, f a = a) : l.map f = l := by
  induction l with
  | nil => rfl
  | cons x xs ih => simp [h x (by simp), ih (fun y hy => h y (by simp [hy]))]

theorem cleanup_ok (now hours : Int) (files : List FileProcessor.TempFile)
    (h : ∀ f ∈ files, FileProcessor.sweepDeletable now hours f = true → f.unlinkFails = false) :
    FileProcessor.cleanup_temp_files now hours files
      = ((files.filter (FileProcessor.sweepDeletable now hours)).map (fun f => f.name), true) := by
  induction files with
  | nil => rfl
  | cons f fs ih =>
      have ihr := ih (fun g hg => h g (by simp [hg]))
      cases hd : FileProcessor.sweepDeletable now hours f
      · have hd2 : (f.isFile && decide (now - f.mtime > hours * 3600)) = false := hd
        simp only [FileProcessor.cleanup_temp_files, hd2, Bool.false_eq_true, if_false]
        rw [ihr, List.filter_cons_of_neg (by simp [hd])]
      · have hd2 : (f.isFile && decide (now - f.mtime > hours * 3600)) = true := hd
        have hu : f.unlinkFails = false := h f (by simp) hd
        simp only [FileProcessor.cleanup_temp_files, hd2, if_true, hu, Bool.false_eq_true,
          if_false]
        rw [ihr, List.filter_cons_of_pos hd]
        simp

theorem cleanup_abort (now hours : Int) (l₁ : List FileProcessor.TempFile)
    (g : FileProcessor.TempFile) (l₂ : List FileProcessor.TempFile)
    (h₁ : ∀ f ∈ l₁, FileProcessor.sweepDeletable now hours f = true → f.unlinkFails = false)
    (hg : FileProcessor.sweepDeletable now hours g = true) (hgf : g.unlinkFails = true) :
    FileProcessor.cleanup_temp_files now hours (l₁ ++ g :: l₂)
      = ((l₁.filter (FileProcessor.sweepDeletable now hours)).map (fun f => f.name), false) := by
  induction l₁ with
  | nil =>
      have hg2 : (g.isFile && decide (now - g.mtime > hours * 3600)) = true := hg
      simp only [List.nil_append, FileProcessor.cleanup_temp_files, hg2, if_true, hgf,
        List.filter_nil, List.map_nil]
  | cons f fs ih =>
      have ihr := ih (fun x hx => h₁ x (by simp [hx]))
      cases hd : FileProcessor.sweepDeletable now hours f
      · have hd2 : (f.isFile && decide (now - f.mtime > hours * 3600)) = false := hd
        simp only [List.cons_append, FileProcessor.cleanup_temp_files, hd2,
          Bool.false_eq_true, if_false, List.append_eq]
        rw [ihr, List.filter_cons_of_neg (by simp [hd])]
      · have hd2 : (f.isFile && decide (now - f.mtime > hours * 3600)) = true := hd
        have hu : f.unlinkFails = false := h₁ f (by simp) hd
        simp only [List.cons_append, FileProcessor.cleanup_temp_files, hd2, if_true, hu,
          Bool.false_eq_true, if_false, List.append_eq]
        rw [ihr, List.filter_cons_of_pos hd]
        simp

/-! ### Claims -/

/-- Claim C3 (confirmed). For every user and every sequence of
`add_message_to_context` calls (any interleaving of users, starting from the
fresh database), the stored context of each user has length at most
`MAX_CONTEXT_LENGTH` (whose configured value is 20) after each call — every
trace here covers all its prefixes — and `get_context` returns exactly the
last `MAX_CONTEXT_LENGTH` of that user's appended messages in append order. -/
theorem C3_context_bounded_ordered (tr : List (Int × String × String)) (u : Int) :
    ((runAdds dbEmpty tr).context.filter (fun r => r.user_id == u)).length
        ≤ config.MAX_CONTEXT_LENGTH ∧
    DatabaseManager.get_context (runAdds dbEmpty tr) u
        = lastN config.MAX_CONTEXT_LENGTH (msgs u tr) ∧
    config.MAX_CONTEXT_LENGTH = 20 := by
  have h := runAdds_spec tr dbEmpty dbEmpty_inv
  refine ⟨h.1.2.2 u, ?_, rfl⟩
  have hge : DatabaseManager.get_context dbEmpty u = [] := rfl
  have := h.2 u
  rw [hge, List.nil_append] at this
  exact this

/-- Claim C5 (confirmed). A missing or oversized file is rejected locally by
`APIHandler.process_file`: the result is absent and zero network requests
are issued; moreover `FileProcessor._validate_file` also rejects any
oversized file, and the configured maximum is 20 MiB. -/
theorem C5_oversize_no_gateway_call (fileExists : Bool) (fileSize : Nat) (openFails : Bool)
    (net : Option FileResponse)
    (h : fileExists = false ∨ config.MAX_FILE_SIZE < fileSize) :
    APIHandler.process_file fileExists fileSize openFails net = (none, 0) ∧
    (config.MAX_FILE_SIZE < fileSize →
      ∀ mime, FileProcessor.validate_file fileSize mime = false) ∧
    config.MAX_FILE_SIZE = 20 * 1024 * 1024 := by
  refine ⟨?_, ?_, rfl⟩
  · rcases h with h | h
    · subst h
      rfl
    · cases fileExists <;> simp [APIHandler.process_file, h]
  · intro hs mime
    simp [FileProcessor.validate_file, hs]

/-- Witness for C5 at a concrete input: a 20 MiB + 1 byte file that exists
and opens fine, against a healthy network. -/
theorem C5_witness :
    (false = false ∨ config.MAX_FILE_SIZE < 20 * 1024 * 1024 + 1) ∧
    APIHandler.process_file true (20 * 1024 * 1024 + 1) false
        (some { status := some "ok", text := none, file_url := none, original_name := none })
      = (none, 0) ∧
    FileProcessor.validate_file (20 * 1024 * 1024 + 1) (some "application/pdf") = false :=
  have h := C5_oversize_no_gateway_call true (20 * 1024 * 1024 + 1) false
    (some { status := some "ok", text := none, file_url := none, original_name := none })
    (Or.inr (by norm_num [config]))
  ⟨Or.inl rfl, h.1, h.2.1 (by norm_num [config]) (some "application/pdf")⟩

/-- Claim C9 (confirmed). Inside the `DatabaseManager` unit of work, an
exception raised by the block rolls the state back and is suppressed —
`__exit__` returns `True`, so `withDatabaseManager` always returns (the
result type has no exception case) and yields `none` with the entry state —
while a normally completing block commits its tentative state. -/
theorem C9_unit_of_work {α : Type} (db : DBState) (body : DBState → BlockResult α) :
    (∀ n s, body db = .exn n s →
      withDatabaseManager db body = (none, db) ∧
      (DatabaseManager.exitHandler (some n) db s).2 = true) ∧
    (∀ v s, body db = .ok v s → withDatabaseManager db body = (some v, s)) := by
  constructor
  · intro n s h
    unfold withDatabaseManager
    rw [h]
    exact ⟨rfl, rfl⟩
  · intro v s h
    unfold withDatabaseManager
    rw [h]
    rfl

/-- Witness for C9: a block that raises `sqlite3.Error` after mutating the
tentative state is rolled back and suppressed; a block returning 42 commits. -/
theorem C9_witness :
    withDatabaseManager dbEmpty
        (fun s => (BlockResult.exn "sqlite3.Error" { s with clock := 99 } : BlockResult Nat))
      = (none, dbEmpty) ∧
    withDatabaseManager dbEmpty
        (fun s => BlockResult.ok (42 : Nat) { s with clock := 7 })
      = (some 42, { dbEmpty with clock := 7 }) :=
  ⟨((C9_unit_of_work dbEmpty
      (fun s => (BlockResult.exn "sqlite3.Error" { s with clock := 99 } : BlockResult Nat))).1
      "sqlite3.Error" { dbEmpty with clock := 99 } rfl).1,
   (C9_unit_of_work dbEmpty
      (fun s => BlockResult.ok (42 : Nat) { s with clock := 7 })).2
      42 { dbEmpty with clock := 7 } rfl⟩

/-- Claim C10 (code bug). For a text message from a user with no `users` row,
`get_user` returns absent and the handler dereferences `.model` on it; the
`AttributeError` is suppressed by the unit of work, the later unbound-name
reference sends control to the `except` branch, and — because
`src/handlers/messages.py` never imports `logging` — that branch raises
`NameError` before any reply is sent. As the claim says, no gateway chat
request is made (the call list is empty) and the normal chat path needs an
existing user row; contrary to the claim, the generic failure reply never
reaches the user: the handler ends with a propagated exception. -/
theorem C10_missing_user_raises :
    handle_text dbEmpty gw_C10 7 "hello" = (.raised "NameError", dbEmpty, []) ∧
    DatabaseManager.get_user dbEmpty 7 = none ∧
    (∀ t, handle_text dbEmpty gw_C10 7 "hello" ≠ (.replied t, dbEmpty, [])) := by
  refine ⟨rfl, rfl, fun t h => ?_⟩
  have h1 : Outcome.raised "NameError" = Outcome.replied t := congrArg Prod.fst h
  exact Outcome.noConfusion h1

/-- Claim C6 (confirmed). After a successful `save_file` with identifier `u`,
`get_file_by_uid u` returns the new record with `processed = false`; after
`mark_file_processed u` returns true, the same lookup returns the same
record with `processed = true`. -/
theorem C6_file_lifecycle (db : DBState) (uid : Int) (fuid ftype fpath oname : String)
    (rec : FileRow) (db' : DBState)
    (h : DatabaseManager.save_file db uid fuid ftype fpath oname = (some rec, db')) :
    DatabaseManager.get_file_by_uid db' fuid = some rec ∧
    rec.processed = false ∧
    (DatabaseManager.mark_file_processed db' fuid).1 = true ∧
    DatabaseManager.get_file_by_uid (DatabaseManager.mark_file_processed db' fuid).2 fuid
      = some { rec with processed := true } := by
  unfold DatabaseManager.save_file at h
  by_cases hdup : db.files.any (fun f => f.file_uid == fuid) = true
  · rw [if_pos hdup] at h
    exact absurd (congrArg Prod.fst h) (by simp)
  · rw [if_neg hdup] at h
    have hall : ∀ f ∈ db.files, (f.file_uid == fuid) = false := by
      intro f hf
      by_contra hc
      exact hdup (List.any_eq_true.mpr
        ⟨f, hf, by revert hc; cases (f.file_uid == fuid) <;> simp⟩)
    rw [Prod.mk.injEq] at h
    obtain ⟨h1, h2⟩ := h
    set row : FileRow :=
      { id := db.nextFileId, user_id := uid, file_uid := fuid,
        file_type := ftype, file_path := fpath, original_name := oname,
        processed := false, created_at := db.clock } with hrowdef
    have hrec : rec = row := (Option.some.inj h1).symm
    subst h2
    subst hrec
    have hrowhit : (row.file_uid == fuid) = true := by simp [hrowdef]
    refine ⟨?_, rfl, ?_, ?_⟩
    · show (db.files ++ [row]).find? (fun f => f.file_uid == fuid) = some row
      rw [find?_append_left_false _ _ _ hall]
      simp [List.find?, hrowhit]
    · show (db.files ++ [row]).any (fun f => f.file_uid == fuid) = true
      rw [List.any_append]
      simp [hrowhit]
    · show ((db.files ++ [row]).map
          (fun f => if f.file_uid == fuid then { f with processed := true } else f)).find?
          (fun f => f.file_uid == fuid) = some { row with processed := true }
      rw [List.map_append]
      have hfix : db.files.map
          (fun f => if f.file_uid == fuid then { f with processed := true } else f)
          = db.files :=
        map_id_of_fix _ _ (fun f hf => by simp [hall f hf])
      rw [hfix, find?_append_left_false _ _ _ hall]
      simp [List.find?, hrowhit]

/-- Witness for C6 at a concrete input: saving uid `"u1"` into the empty
database and replaying the lookups. -/
theorem C6_witness :
    DatabaseManager.save_file dbEmpty 1 "u1" "pdf" "p" "n" = (some fileRow_C6, db_C6) ∧
    (DatabaseManager.get_file_by_uid db_C6 "u1" = some fileRow_C6 ∧
     fileRow_C6.processed = false ∧
     (DatabaseManager.mark_file_processed db_C6 "u1").1 = true ∧
     DatabaseManager.get_file_by_uid (DatabaseManager.mark_file_processed db_C6 "u1").2 "u1"
       = some { fileRow_C6 with processed := true }) :=
  ⟨rfl, C6_file_lifecycle dbEmpty 1 "u1" "pdf" "p" "n" fileRow_C6 db_C6 rfl⟩

/-- Claim C7 (corrected — counterexample). A mid-stream failure after one
8 KiB chunk has been delivered returns `false` but leaves the received bytes
at the destination: where no file existed before, an unmarked partial file
now exists, contradicting "leaves no partial file — or an explicitly marked
partial file — at the destination path". -/
theorem C7_counterexample :
    (APIHandler.download_processed_file (.stream [[1, 2, 3]] true) none).1 = false ∧
    (APIHandler.download_processed_file (.stream [[1, 2, 3]] true) none).2 = some [1, 2, 3] ∧
    some [1, 2, 3] ≠ (none : Option (List Nat)) := by
  refine ⟨rfl, rfl, by decide⟩

/-- Claim C7 (amended). `download_processed_file` returns `false` on every
error; an error before the destination is opened (connection or HTTP status
failure) leaves the destination untouched, but a mid-stream failure leaves
the chunks received so far written — unmarked — at the destination. -/
theorem C7_amended (src : APIHandler.DownloadSource) (dest : Option (List Nat)) :
    (src = .connError → APIHandler.download_processed_file src dest = (false, dest)) ∧
    (∀ chunks, src = .stream chunks true →
      APIHandler.download_processed_file src dest
        = (false, some (APIHandler.writtenBytes chunks))) ∧
    (∀ chunks, src = .stream chunks false →
      APIHandler.download_processed_file src dest
        = (true, some (APIHandler.writtenBytes chunks))) := by
  refine ⟨?_, ?_, ?_⟩
  · rintro rfl
    rfl
  · intro chunks h
    subst h
    rfl
  · intro chunks h
    subst h
    rfl

/-- Witness for C7 (amended) at concrete inputs: a connection failure over an
existing destination file, and a mid-stream failure with an empty chunk
filtered out. -/
theorem C7_amended_witness :
    APIHandler.download_processed_file .connError (some [9]) = (false, some [9]) ∧
    APIHandler.download_processed_file (.stream [[1], [], [2]] true) none
      = (false, some [1, 2]) :=
  ⟨(C7_amended .connError (some [9])).1 rfl,
   (C7_amended (.stream [[1], [], [2]] true) none).2.1 [[1], [], [2]] rfl⟩

/-- Claim C4 (corrected — counterexample). Two stale regular files, deleting
the first fails: the sweep deletes nothing and stops, so the second stale
file — deletable and older than the threshold — survives the run,
contradicting "exactly the stale files are deleted and a failure does not
abort the sweep" (the `try` wraps the whole loop, so the single `except`
ends it). -/
theorem C4_counterexample :
    FileProcessor.cleanup_temp_files (100 * 3600) FileProcessor.cleanup_default_hours files_C4
      = ([], false) ∧
    files_C4[1]?.map
        (FileProcessor.sweepDeletable (100 * 3600) FileProcessor.cleanup_default_hours)
      = some true ∧
    "b.pdf" ∉ (FileProcessor.cleanup_temp_files (100 * 3600)
        FileProcessor.cleanup_default_hours files_C4).1 := by
  refine ⟨rfl, rfl, by decide⟩

/-- Claim C4 (amended). In an error-free run, `cleanup_temp_files` deletes
exactly the regular files of the temporary area whose age exceeds the
threshold (default 24 hours); when some deletion raises, the files deleted
are exactly the qualifying ones before the first failing entry, the error is
logged once by the sweep-level handler and the sweep stops, leaving the
remaining entries unexamined. -/
theorem C4_amended (now hours : Int) (files : List FileProcessor.TempFile) :
    ((∀ f ∈ files, FileProcessor.sweepDeletable now hours f = true → f.unlinkFails = false) →
      FileProcessor.cleanup_temp_files now hours files
        = ((files.filter (FileProcessor.sweepDeletable now hours)).map (fun f => f.name),
           true)) ∧
    (∀ l₁ g l₂, files = l₁ ++ g :: l₂ →
      (∀ f ∈ l₁, FileProcessor.sweepDeletable now hours f = true → f.unlinkFails = false) →
      FileProcessor.sweepDeletable now hours g = true → g.unlinkFails = true →
      FileProcessor.cleanup_temp_files now hours files
        = ((l₁.filter (FileProcessor.sweepDeletable now hours)).map (fun f => f.name),
           false)) ∧
    FileProcessor.cleanup_default_hours = 24 := by
  refine ⟨cleanup_ok now hours files, ?_, rfl⟩
  intro l₁ g l₂ hsplit h₁ hg hgf
  subst hsplit
  exact cleanup_abort now hours l₁ g l₂ h₁ hg hgf

/-- Witness for C4 (amended): an error-free sweep over one stale and one
fresh file deletes exactly the stale one; the aborting case replays the
counterexample state through the theorem. -/
theorem C4_amended_witness :
    (∀ f ∈ [({ name := "old.txt", isFile := true, mtime := 0, unlinkFails := false } :
          FileProcessor.TempFile),
        { name := "new.txt", isFile := true, mtime := 100 * 3600 - 10, unlinkFails := false }],
      FileProcessor.sweepDeletable (100 * 3600) 24 f = true → f.unlinkFails = false) ∧
    FileProcessor.cleanup_temp_files (100 * 3600) 24
        [{ name := "old.txt", isFile := true, mtime := 0, unlinkFails := false },
         { name := "new.txt", isFile := true, mtime := 100 * 3600 - 10, unlinkFails := false }]
      = (["old.txt"], true) ∧
    FileProcessor.cleanup_temp_files (100 * 3600) 24 files_C4 = ([], false) :=
  ⟨by decide,
   (C4_amended (100 * 3600) 24
      [{ name := "old.txt", isFile := true, mtime := 0, unlinkFails := false },
       { name := "new.txt", isFile := true, mtime := 100 * 3600 - 10,
         unlinkFails := false }]).1 (by decide),
   (C4_amended (100 * 3600) 24 files_C4).2.1 []
      { name := "a.pdf", isFile := true, mtime := 0, unlinkFails := true }
      [{ name := "b.pdf", isFile := true, mtime := 0, unlinkFails := false }]
      rfl (by simp) (by decide) rfl⟩

/-- Claim C1 (corrected — counterexample). In the scenario itself — user 1
with stored model `"gpt-4"` and empty context, gateway returning
`choices[0].message.content = "4"` for the text `"2+2?"` — the reply
rendered to the transport is exactly `"4"` and the stored context afterwards
contains the assistant turn, but it does not contain the user turn
`("user", "2+2?")`: `handle_text` appends the user message only to the
in-memory request list and never persists it. -/
theorem C1_counterexample :
    (handle_text db_C1 gw_C1 1 "2+2?").1 = .replied "4" ∧
    ({ role := "user", content := "2+2?" } : ChatMessage)
        ∉ DatabaseManager.get_context (handle_text db_C1 gw_C1 1 "2+2?").2.1 1 ∧
    ({ role := "assistant", content := "4" } : ChatMessage)
        ∈ DatabaseManager.get_context (handle_text db_C1 gw_C1 1 "2+2?").2.1 1 := by
  refine ⟨rfl, by decide, by decide⟩

/-- Claim C1 (amended). For every invariant-satisfying state in which the
user's stored model is set, when the gateway returns
`{"choices":[{"message":{"content":"4"}}]}` on the built payload for input
`"2+2?"`, the reply rendered to the transport is exactly `"4"` and the
stored context afterwards is the previous stored context extended by the
assistant turn `"4"` (windowed) — in particular it contains that assistant
turn; the user turn itself is not persisted. -/
theorem C1_amended (db : DBState) (gw : ChatGateway) (uid : Int) (u : UserRow) (m : String)
    (hInv : Inv db) (hu : DatabaseManager.get_user db uid = some u) (_hm : u.model = some m)
    (hgw : gw u.model (lastN config.MAX_CONTEXT_LENGTH
        (DatabaseManager.get_context db uid ++ [{ role := "user", content := "2+2?" }]))
      = some { choices := some [{ message := { content := "4" } }] }) :
    (handle_text db gw uid "2+2?").1 = .replied "4" ∧
    DatabaseManager.get_context (handle_text db gw uid "2+2?").2.1 uid
      = lastN config.MAX_CONTEXT_LENGTH
          (DatabaseManager.get_context db uid ++ [{ role := "assistant", content := "4" }]) ∧
    ({ role := "assistant", content := "4" } : ChatMessage)
        ∈ DatabaseManager.get_context (handle_text db gw uid "2+2?").2.1 uid := by
  have hht : handle_text db gw uid "2+2?"
      = (.replied "4",
         DatabaseManager.add_message_to_context db uid "assistant" "4",
         [(u.model, lastN config.MAX_CONTEXT_LENGTH
            (DatabaseManager.get_context db uid
              ++ [{ role := "user", content := "2+2?" }]))]) := by
    simp [handle_text, hu, hgw]
  have hadd := add_message_spec db uid "assistant" "4" hInv
  have hctx : DatabaseManager.get_context (handle_text db gw uid "2+2?").2.1 uid
      = lastN config.MAX_CONTEXT_LENGTH
          (DatabaseManager.get_context db uid
            ++ [{ role := "assistant", content := "4" }]) := by
    rw [hht]
    exact hadd.2.1
  refine ⟨by rw [hht], hctx, ?_⟩
  rw [hctx]
  exact mem_lastN_append_singleton config.MAX_CONTEXT_LENGTH (by decide) _ _

/-- Witness for C1 (amended) at the scenario state: user 1 with model
`"gpt-4"`, empty context, gateway returning content `"4"`. -/
theorem C1_amended_witness :
    Inv db_C1 ∧
    DatabaseManager.get_user db_C1 1 = some { id := 1, username := none, model := some "gpt-4" } ∧
    (handle_text db_C1 gw_C1 1 "2+2?").1 = .replied "4" ∧
    ({ role := "assistant", content := "4" } : ChatMessage)
        ∈ DatabaseManager.get_context (handle_text db_C1 gw_C1 1 "2+2?").2.1 1 := by
  have hInv : Inv db_C1 := by
    refine ⟨?_, ?_, ?_⟩ <;> simp [db_C1, dbEmpty, config]
  have h := C1_amended db_C1 gw_C1 1 { id := 1, username := none, model := some "gpt-4" }
    "gpt-4" hInv rfl rfl rfl
  exact ⟨hInv, rfl, h.1, h.2.2⟩

/-- Claim C8 (corrected — counterexample). For a user whose stored model is
absent, the handler still proceeds and the gateway call fails, but the
outcome reported to the user is the generic response-failure message
`"⚠️ Ошибка получения ответа"`, not the specific message "no model
selected" — no such message exists in the handler. -/
theorem C8_counterexample :
    DatabaseManager.get_user db_C8 1 = some { id := 1, username := none, model := none } ∧
    (handle_text db_C8 gw_C8 1 "hi").1 = .replied genericResponseError ∧
    (handle_text db_C8 gw_C8 1 "hi").1 ≠ .replied "no model selected" ∧
    genericResponseError ≠ "no model selected" := by
  refine ⟨rfl, rfl, by decide, by decide⟩

/-- Claim C8 (amended). For every state whose user row has no stored model,
context building still proceeds — the gateway is invoked exactly once, with
an absent model identifier and the built message window — and when that call
fails the user receives the generic response-failure reply
`genericResponseError` (not an internal-error reply, and not a dedicated
"no model selected" message), with the database unchanged. -/
theorem C8_amended (db : DBState) (gw : ChatGateway) (uid : Int) (u : UserRow) (text : String)
    (hu : DatabaseManager.get_user db uid = some u) (hm : u.model = none)
    (hgw : gw none (lastN config.MAX_CONTEXT_LENGTH
        (DatabaseManager.get_context db uid ++ [{ role := "user", content := text }]))
      = none) :
    handle_text db gw uid text
      = (.replied genericResponseError, db,
         [(none, lastN config.MAX_CONTEXT_LENGTH
            (DatabaseManager.get_context db uid
              ++ [{ role := "user", content := text }]))]) := by
  simp [handle_text, hu, hm, hgw]

/-- Witness for C8 (amended) at the concrete state: user 1 with `model`
`NULL`, gateway failing on an absent model. -/
theorem C8_amended_witness :
    DatabaseManager.get_user db_C8 1 = some { id := 1, username := none, model := none } ∧
    handle_text db_C8 gw_C8 1 "hi"
      = (.replied genericResponseError, db_C8,
         [(none, [{ role := "user", content := "hi" }])]) := by
  have h := C8_amended db_C8 gw_C8 1 { id := 1, username := none, model := none } "hi"
    rfl rfl rfl
  exact ⟨rfl, h⟩

/-- Claim C2 (code bug). For the Gateway response
`{"status":"ok","file_url":"http://x/y.pdf","original_name":"y.pdf"}` the
ingest step does call the download operation exactly once with that URL —
but it then persists nothing: the call `db.save_file(..., processed=True)`
passes a `processed` keyword that `DatabaseManager.save_file` does not
declare, so Python raises `TypeError` before any SQL runs, the unit of work
suppresses it, and the `files` table is unchanged (no `FileRecord` with
`processed = true`, under a fresh uid or otherwise) while the handler still
returns a success result. -/
theorem C2_ingest_no_record :
    FileProcessor.call_save_file FileProcessor.handle_response_save_kwargs db_C2 1 "fresh-uid"
        "pdf" "temp_files/processed_y.pdf" "y.pdf" = FileProcessor.PyCall.typeError ∧
    FileProcessor.handle_file_response db_C2 (fun _ => true) resp_C2 1 "fresh-uid"
      = (some { path := "temp_files/processed_y.pdf", original_name := "y.pdf" },
         db_C2, ["http://x/y.pdf"]) ∧
    (FileProcessor.handle_file_response db_C2 (fun _ => true) resp_C2 1 "fresh-uid").2.1.files
      = db_C2.files := by
  refine ⟨rfl, rfl, rfl⟩

end ChatBot
